import Mathlib

/-!
# iexjs request-building core: a shallow embedding

This file embeds the endpoint functions of `src/src/js/marketdata/http.js`
and the ref-data symbols module (concatenated inside `src/package.json`) of
the iexjs client library, together with models of the shared helpers
(`_getJson`, `_raiseIfNotStr`, `_strToList`, `_strOrDate`, `Client`) whose
defining file (`src/js/common.js`, `src/js/client.js`) is not part of the
sources; those are modelled from the specification and marked as such.

The HTTP transport is abstracted as an explicit function from a request
descriptor to an arbitrary result type, so every endpoint function is pure
and executable; a JS promise that is awaited is modelled as the resolved
value itself.
-/

namespace Iexjs

/-- The request descriptor assembled by every endpoint: relative url path,
access token, API version, and optional server-side filter (spec §3).
`filter = none` models a JS `undefined` filter argument. -/
structure Request where
  url : String
  token : String
  version : String
  filter : Option String
  deriving Repr, DecidableEq

/-- The JS values that reach a symbols/symbol parameter in this code base:
`undefined` (omitted), a single string, or an array of strings. -/
inductive JsVal where
  | undef
  | str (s : String)
  | list (ss : List String)
  deriving Repr, DecidableEq

/-- JS truthiness of such a value: `undefined` is falsy, a string is truthy
iff non-empty, an array is always truthy. -/
def JsVal.truthy : JsVal → Bool
  | .undef => false
  | .str s => s != ""
  | .list _ => true

/-- JS template-literal interpolation of such a value (an array interpolates
as the comma-join of its elements). -/
def JsVal.interp : JsVal → String
  | .undef => "undefined"
  | .str s => s
  | .list ss => String.intercalate "," ss

/-- The error raised by the argument validators (spec §7 taxonomy; only the
kind reachable from the embedded endpoints is needed). -/
inductive JsError where
  | typeArgumentError
  deriving Repr, DecidableEq

/-- Modelled from the spec: `_raiseIfNotStr` lives in `src/js/common.js`,
which is not among the sources.  Spec §4.2: "fails with `TypeArgumentError`
if `value` is provided but is not a single string". -/
def _raiseIfNotStr : JsVal → Except JsError Unit
  | .undef => .ok ()
  | .str _ => .ok ()
  | .list _ => .error .typeArgumentError

/-- Modelled from the spec: `_strToList` lives in `src/js/common.js`, which
is not among the sources.  Spec §4.2: "accepts either a single string or an
ordered sequence of strings and normalizes to an ordered sequence of
strings".  The `undef` case is unreachable behind the truthiness guards. -/
def _strToList : JsVal → List String
  | .undef => []
  | .str s => [s]
  | .list ss => ss

/-- Modelled from the spec: `_strOrDate` lives in `src/js/common.js`, which
is not among the sources.  Only its pass-through case for a string already
in the expected format is needed by the embedded endpoints; date-object
normalization and `InvalidDateError` are not modelled. -/
def _strOrDate (s : String) : String := s

/-- Modelled from the spec: `_getJson` lives in `src/js/common.js`, which is
not among the sources.  Spec §4.1: the request core accepts a relative path,
token, version, and optional filter, and issues the HTTP GET.  The transport
is abstracted as a function from the assembled request descriptor. -/
def _getJson {α : Type} (transport : Request → α) (req : Request) : α :=
  transport req

/-- The one-field options object `{url}` that `http.js` passes as the first
argument of `_getJson`. -/
structure UrlOpts where
  url : String
  deriving Repr, DecidableEq

/-- Modelled from the spec: the positional calling convention used by
`http.js` — `_getJson({url}, token, version, filter)` — assembling the same
four-field descriptor the core consumes (spec §4.1). -/
def _getJsonPos {α : Type} (transport : Request → α) (opts : UrlOpts)
    (token version : String) (filter : Option String) : α :=
  _getJson transport
    { url := opts.url, token := token, version := version, filter := filter }

/-! ## Endpoints of `src/src/js/marketdata/http.js` -/

/-- Embeds `tops` (http.js:22-40).  A truthy `symbols` selects the batch URL
and calls `_getJson` with three arguments, so the core's filter parameter is
`undefined`; otherwise the plain URL with the filter forwarded. -/
def tops {α : Type} (t : Request → α) (symbols : JsVal)
    (token version : String) (filter : Option String) : α :=
  if symbols.truthy then
    _getJsonPos t
      ⟨"tops?symbols=" ++ String.intercalate "," (_strToList symbols) ++ "%2b"⟩
      token version none
  else
    _getJsonPos t ⟨"tops"⟩ token version filter

/-- Embeds `last` (http.js:55-73), same shape as `tops`. -/
def last {α : Type} (t : Request → α) (symbols : JsVal)
    (token version : String) (filter : Option String) : α :=
  if symbols.truthy then
    _getJsonPos t
      ⟨"last?symbols=" ++ String.intercalate "," (_strToList symbols) ++ "%2b"⟩
      token version none
  else
    _getJsonPos t ⟨"last"⟩ token version filter

/-- Embeds `deep` (http.js:93-112): validates via `_raiseIfNotStr`; a truthy
symbol selects `deep?symbols=` with the filter dropped (three-argument
`_getJson` call), otherwise `deep` with the filter forwarded. -/
def deep {α : Type} (t : Request → α) (symbol : JsVal)
    (token version : String) (filter : Option String) : Except JsError α :=
  match _raiseIfNotStr symbol with
  | .error e => .error e
  | .ok _ =>
    if symbol.truthy then
      .ok (_getJsonPos t ⟨"deep?symbols=" ++ symbol.interp⟩ token version none)
    else
      .ok (_getJsonPos t ⟨"deep"⟩ token version filter)

/-- Embeds `auction` (http.js:127-147): validates via `_raiseIfNotStr`; both
branches forward the filter (the four-argument `_getJson` call on both
sides). -/
def auction {α : Type} (t : Request → α) (symbol : JsVal)
    (token version : String) (filter : Option String) : Except JsError α :=
  match _raiseIfNotStr symbol with
  | .error e => .error e
  | .ok _ =>
    if symbol.truthy then
      .ok (_getJsonPos t ⟨"deep/auction?symbols=" ++ symbol.interp⟩
        token version filter)
    else
      .ok (_getJsonPos t ⟨"deep/auction"⟩ token version filter)

/-- Embeds `book` (http.js:161-181), same shape as `auction`. -/
def book {α : Type} (t : Request → α) (symbol : JsVal)
    (token version : String) (filter : Option String) : Except JsError α :=
  match _raiseIfNotStr symbol with
  | .error e => .error e
  | .ok _ =>
    if symbol.truthy then
      .ok (_getJsonPos t ⟨"deep/book?symbols=" ++ symbol.interp⟩
        token version filter)
    else
      .ok (_getJsonPos t ⟨"deep/book"⟩ token version filter)

/-- Embeds `opHaltStatus` (http.js:202-222), same shape as `auction`. -/
def opHaltStatus {α : Type} (t : Request → α) (symbol : JsVal)
    (token version : String) (filter : Option String) : Except JsError α :=
  match _raiseIfNotStr symbol with
  | .error e => .error e
  | .ok _ =>
    if symbol.truthy then
      .ok (_getJsonPos t ⟨"deep/op-halt-status?symbols=" ++ symbol.interp⟩
        token version filter)
    else
      .ok (_getJsonPos t ⟨"deep/op-halt-status"⟩ token version filter)

/-- Embeds `officialPrice` (http.js:239-259), same shape as `auction`. -/
def officialPrice {α : Type} (t : Request → α) (symbol : JsVal)
    (token version : String) (filter : Option String) : Except JsError α :=
  match _raiseIfNotStr symbol with
  | .error e => .error e
  | .ok _ =>
    if symbol.truthy then
      .ok (_getJsonPos t ⟨"deep/official-price?symbols=" ++ symbol.interp⟩
        token version filter)
    else
      .ok (_getJsonPos t ⟨"deep/official-price"⟩ token version filter)

/-- Embeds `securityEvent` (http.js:273-293), same shape as `auction`. -/
def securityEvent {α : Type} (t : Request → α) (symbol : JsVal)
    (token version : String) (filter : Option String) : Except JsError α :=
  match _raiseIfNotStr symbol with
  | .error e => .error e
  | .ok _ =>
    if symbol.truthy then
      .ok (_getJsonPos t ⟨"deep/security-event?symbols=" ++ symbol.interp⟩
        token version filter)
    else
      .ok (_getJsonPos t ⟨"deep/security-event"⟩ token version filter)

/-- Embeds `ssrStatus` (http.js:313-333), same shape as `auction`. -/
def ssrStatus {α : Type} (t : Request → α) (symbol : JsVal)
    (token version : String) (filter : Option String) : Except JsError α :=
  match _raiseIfNotStr symbol with
  | .error e => .error e
  | .ok _ =>
    if symbol.truthy then
      .ok (_getJsonPos t ⟨"deep/ssr-status?symbols=" ++ symbol.interp⟩
        token version filter)
    else
      .ok (_getJsonPos t ⟨"deep/ssr-status"⟩ token version filter)

/-- Embeds `systemEvent` (http.js:350-370), same shape as `auction`. -/
def systemEvent {α : Type} (t : Request → α) (symbol : JsVal)
    (token version : String) (filter : Option String) : Except JsError α :=
  match _raiseIfNotStr symbol with
  | .error e => .error e
  | .ok _ =>
    if symbol.truthy then
      .ok (_getJsonPos t ⟨"deep/system-event?symbols=" ++ symbol.interp⟩
        token version filter)
    else
      .ok (_getJsonPos t ⟨"deep/system-event"⟩ token version filter)

/-- Embeds `trades` (http.js:384-404), same shape as `auction`. -/
def trades {α : Type} (t : Request → α) (symbol : JsVal)
    (token version : String) (filter : Option String) : Except JsError α :=
  match _raiseIfNotStr symbol with
  | .error e => .error e
  | .ok _ =>
    if symbol.truthy then
      .ok (_getJsonPos t ⟨"deep/trades?symbols=" ++ symbol.interp⟩
        token version filter)
    else
      .ok (_getJsonPos t ⟨"deep/trades"⟩ token version filter)

/-- Embeds `tradeBreak` (http.js:418-438), same shape as `auction` (note the
plural `trade-breaks` path segment). -/
def tradeBreak {α : Type} (t : Request → α) (symbol : JsVal)
    (token version : String) (filter : Option String) : Except JsError α :=
  match _raiseIfNotStr symbol with
  | .error e => .error e
  | .ok _ =>
    if symbol.truthy then
      .ok (_getJsonPos t ⟨"deep/trade-breaks?symbols=" ++ symbol.interp⟩
        token version filter)
    else
      .ok (_getJsonPos t ⟨"deep/trade-breaks"⟩ token version filter)

/-- Embeds `tradingStatus` (http.js:467-487), same shape as `auction`. -/
def tradingStatus {α : Type} (t : Request → α) (symbol : JsVal)
    (token version : String) (filter : Option String) : Except JsError α :=
  match _raiseIfNotStr symbol with
  | .error e => .error e
  | .ok _ =>
    if symbol.truthy then
      .ok (_getJsonPos t ⟨"deep/trading-status?symbols=" ++ symbol.interp⟩
        token version filter)
    else
      .ok (_getJsonPos t ⟨"deep/trading-status"⟩ token version filter)

/-- Embeds `hist` (http.js:499-518): a truthy date selects `hist?date=`, the
filter is forwarded in both branches. -/
def hist {α : Type} (t : Request → α) (date : String)
    (token version : String) (filter : Option String) : α :=
  if date != "" then
    _getJsonPos t ⟨"hist?date=" ++ _strOrDate date⟩ token version filter
  else
    _getJsonPos t ⟨"hist"⟩ token version filter

/-! ## Ref-data symbols module (concatenated inside `src/package.json`)

The JS functions here take `token = ""`, `version = ""`, `filter = ""` with
default arguments and pass all four fields in one object to `_getJson`; the
defaults are represented by the caller passing `""`. -/

/-- Embeds `symbols` (ref-data module). -/
def symbols {α : Type} (t : Request → α) (token version filter : String) : α :=
  _getJson t
    { url := "ref-data/symbols", token := token, version := version,
      filter := some filter }

/-- Embeds `iexSymbols` (ref-data module). -/
def iexSymbols {α : Type} (t : Request → α) (token version filter : String) : α :=
  _getJson t
    { url := "ref-data/iex/symbols", token := token, version := version,
      filter := some filter }

/-- Embeds `mutualFundSymbols` (ref-data module). -/
def mutualFundSymbols {α : Type} (t : Request → α)
    (token version filter : String) : α :=
  _getJson t
    { url := "ref-data/mutual-funds/symbols", token := token,
      version := version, filter := some filter }

/-- Embeds `otcSymbols` (ref-data module). -/
def otcSymbols {α : Type} (t : Request → α) (token version filter : String) : α :=
  _getJson t
    { url := "ref-data/otc/symbols", token := token, version := version,
      filter := some filter }

/-- Embeds `internationalSymbols` (ref-data module): a truthy region selects
the region URL form, else a truthy exchange selects the exchange URL form,
else the `us` region URL form.  An omitted (JS `undefined`) region or
exchange is falsy exactly like `""` and is represented by `""`. -/
def internationalSymbols {α : Type} (t : Request → α)
    (region exchange token version filter : String) : α :=
  if region != "" then
    _getJson t
      { url := "ref-data/region/" ++ region ++ "/symbols", token := token,
        version := version, filter := some filter }
  else if exchange != "" then
    _getJson t
      { url := "ref-data/exchange/" ++ exchange ++ "/symbols", token := token,
        version := version, filter := some filter }
  else
    _getJson t
      { url := "ref-data/region/us/symbols", token := token,
        version := version, filter := some filter }

/-- Embeds `fxSymbols` (ref-data module). -/
def fxSymbols {α : Type} (t : Request → α) (token version filter : String) : α :=
  _getJson t
    { url := "ref-data/fx/symbols", token := token, version := version,
      filter := some filter }

/-- Embeds `optionsSymbols` (ref-data module). -/
def optionsSymbols {α : Type} (t : Request → α)
    (token version filter : String) : α :=
  _getJson t
    { url := "ref-data/options/symbols", token := token, version := version,
      filter := some filter }

/-- Embeds `cryptoSymbols` (ref-data module). -/
def cryptoSymbols {α : Type} (t : Request → α)
    (token version filter : String) : α :=
  _getJson t
    { url := "ref-data/crypto/symbols", token := token, version := version,
      filter := some filter }

/-- Embeds `isinLookup` (ref-data module). -/
def isinLookup {α : Type} (t : Request → α)
    (isin token version filter : String) : α :=
  _getJson t
    { url := "ref-data/isin?isin=" ++ isin, token := token,
      version := version, filter := some filter }

/-- A record of a symbols response, as far as the list conversions project
it: the `record.symbol` field access. -/
structure SymbolRecord where
  symbol : String
  deriving Repr, DecidableEq

/-- Embeds `convertToList` (ref-data module):
`async (res) => (await res).map((record) => record.symbol)`; the awaited
promise is modelled as the resolved array. -/
def convertToList (res : List SymbolRecord) : List String :=
  res.map (fun record => record.symbol)

/-- Embeds `symbolsList` (ref-data module). -/
def symbolsList (t : Request → List SymbolRecord)
    (token version : String) : List String :=
  convertToList (symbols t token version "symbol")

/-- Embeds `iexSymbolsList` (ref-data module). -/
def iexSymbolsList (t : Request → List SymbolRecord)
    (token version : String) : List String :=
  convertToList (iexSymbols t token version "symbol")

/-- Embeds `mutualFundSymbolsList` (ref-data module). -/
def mutualFundSymbolsList (t : Request → List SymbolRecord)
    (token version : String) : List String :=
  convertToList (mutualFundSymbols t token version "symbol")

/-- Embeds `otcSymbolsList` (ref-data module). -/
def otcSymbolsList (t : Request → List SymbolRecord)
    (token version : String) : List String :=
  convertToList (otcSymbols t token version "symbol")

/-- Embeds `internationalSymbolsList` (ref-data module). -/
def internationalSymbolsList (t : Request → List SymbolRecord)
    (region exchange token version : String) : List String :=
  convertToList (internationalSymbols t region exchange token version "symbol")

/-- Embeds `optionsSymbolsList` (ref-data module). -/
def optionsSymbolsList (t : Request → List SymbolRecord)
    (token version : String) : List String :=
  convertToList (optionsSymbols t token version "symbol")

/-- Embeds `cryptoSymbolsList` (ref-data module). -/
def cryptoSymbolsList (t : Request → List SymbolRecord)
    (token version : String) : List String :=
  convertToList (cryptoSymbols t token version "symbol")

/-- An element of the `currencies` array of the FX symbols response, as far
as `fxSymbolsList` projects it. -/
structure CurrencyRecord where
  code : String
  deriving Repr, DecidableEq

/-- An element of the `pairs` array of the FX symbols response, as far as
`fxSymbolsList` projects it. -/
structure PairRecord where
  fromCurrency : String
  toCurrency : String
  deriving Repr, DecidableEq

/-- The decoded FX symbols response object with its two array fields. -/
structure FxResponse where
  currencies : List CurrencyRecord
  pairs : List PairRecord
  deriving Repr, DecidableEq

/-- Embeds `fxSymbolsList` (ref-data module): awaits `fxSymbols(token,
version)` (the omitted filter defaults to `""`), then pushes `record.code`
for each element of `currencies` and `record.fromCurrency +
record.toCurrency` for each element of `pairs`; the two `forEach`/`push`
loops are embedded as left folds appending at the end. -/
def fxSymbolsList (t : Request → FxResponse)
    (token version : String) : List String × List String :=
  let fx := fxSymbols t token version ""
  let ret0 := fx.currencies.foldl (fun acc record => acc ++ [record.code]) []
  let ret1 := fx.pairs.foldl
    (fun acc record => acc ++ [record.fromCurrency ++ record.toCurrency]) []
  (ret0, ret1)

/-! ## The `Client` object and its mounted methods -/

/-- Modelled from the spec: `Client` lives in `src/js/client.js`, which is
not among the sources.  Spec §3: it holds the access token and the API
version that the mounted methods supply to the free functions. -/
structure Client where
  _token : String
  _version : String

/-- Embeds `Client.prototype.tops` (http.js:42-44). -/
def Client.tops {α : Type} (c : Client) (t : Request → α)
    (symbols : JsVal) (filter : Option String) : α :=
  Iexjs.tops t symbols c._token c._version filter

/-- Embeds `Client.prototype.last` (http.js:75-77). -/
def Client.last {α : Type} (c : Client) (t : Request → α)
    (symbols : JsVal) (filter : Option String) : α :=
  Iexjs.last t symbols c._token c._version filter

/-- Embeds `Client.prototype.deep` (http.js:114-116). -/
def Client.deep {α : Type} (c : Client) (t : Request → α)
    (symbol : JsVal) (filter : Option String) : Except JsError α :=
  Iexjs.deep t symbol c._token c._version filter

/-- Embeds `Client.prototype.auction` (http.js:149-151). -/
def Client.auction {α : Type} (c : Client) (t : Request → α)
    (symbol : JsVal) (filter : Option String) : Except JsError α :=
  Iexjs.auction t symbol c._token c._version filter

/-- Embeds `Client.prototype.book` (http.js:183-185). -/
def Client.book {α : Type} (c : Client) (t : Request → α)
    (symbol : JsVal) (filter : Option String) : Except JsError α :=
  Iexjs.book t symbol c._token c._version filter

/-- Embeds `Client.prototype.opHaltStatus` (http.js:224-226). -/
def Client.opHaltStatus {α : Type} (c : Client) (t : Request → α)
    (symbol : JsVal) (filter : Option String) : Except JsError α :=
  Iexjs.opHaltStatus t symbol c._token c._version filter

/-- Embeds `Client.prototype.officialPrice` (http.js:261-263). -/
def Client.officialPrice {α : Type} (c : Client) (t : Request → α)
    (symbol : JsVal) (filter : Option String) : Except JsError α :=
  Iexjs.officialPrice t symbol c._token c._version filter

/-- Embeds `Client.prototype.securityEvent` (http.js:295-297). -/
def Client.securityEvent {α : Type} (c : Client) (t : Request → α)
    (symbol : JsVal) (filter : Option String) : Except JsError α :=
  Iexjs.securityEvent t symbol c._token c._version filter

/-- Embeds `Client.prototype.ssrStatus` (http.js:335-337). -/
def Client.ssrStatus {α : Type} (c : Client) (t : Request → α)
    (symbol : JsVal) (filter : Option String) : Except JsError α :=
  Iexjs.ssrStatus t symbol c._token c._version filter

/-- Embeds `Client.prototype.systemEvent` (http.js:372-374). -/
def Client.systemEvent {α : Type} (c : Client) (t : Request → α)
    (symbol : JsVal) (filter : Option String) : Except JsError α :=
  Iexjs.systemEvent t symbol c._token c._version filter

/-- Embeds `Client.prototype.trades` (http.js:406-408). -/
def Client.trades {α : Type} (c : Client) (t : Request → α)
    (symbol : JsVal) (filter : Option String) : Except JsError α :=
  Iexjs.trades t symbol c._token c._version filter

/-- Embeds `Client.prototype.tradeBreak` (http.js:440-442). -/
def Client.tradeBreak {α : Type} (c : Client) (t : Request → α)
    (symbol : JsVal) (filter : Option String) : Except JsError α :=
  Iexjs.tradeBreak t symbol c._token c._version filter

/-- Embeds `Client.prototype.tradingStatus` (http.js:489-491). -/
def Client.tradingStatus {α : Type} (c : Client) (t : Request → α)
    (symbol : JsVal) (filter : Option String) : Except JsError α :=
  Iexjs.tradingStatus t symbol c._token c._version filter

/-- Embeds `Client.prototype.hist` (http.js:520-522). -/
def Client.hist {α : Type} (c : Client) (t : Request → α)
    (date : String) (filter : Option String) : α :=
  Iexjs.hist t date c._token c._version filter

/-- Embeds `Client.prototype.symbols` (ref-data module). -/
def Client.symbols {α : Type} (c : Client) (t : Request → α)
    (filter : String) : α :=
  Iexjs.symbols t c._token c._version filter

/-- Embeds `Client.prototype.iexSymbols` (ref-data module). -/
def Client.iexSymbols {α : Type} (c : Client) (t : Request → α)
    (filter : String) : α :=
  Iexjs.iexSymbols t c._token c._version filter

/-- Embeds `Client.prototype.mutualFundSymbols` (ref-data module). -/
def Client.mutualFundSymbols {α : Type} (c : Client) (t : Request → α)
    (filter : String) : α :=
  Iexjs.mutualFundSymbols t c._token c._version filter

/-- Embeds `Client.prototype.otcSymbols` (ref-data module). -/
def Client.otcSymbols {α : Type} (c : Client) (t : Request → α)
    (filter : String) : α :=
  Iexjs.otcSymbols t c._token c._version filter

/-- Embeds `Client.prototype.internationalSymbols` (ref-data module). -/
def Client.internationalSymbols {α : Type} (c : Client) (t : Request → α)
    (region exchange filter : String) : α :=
  Iexjs.internationalSymbols t region exchange c._token c._version filter

/-- Embeds `Client.prototype.fxSymbols` (ref-data module). -/
def Client.fxSymbols {α : Type} (c : Client) (t : Request → α)
    (filter : String) : α :=
  Iexjs.fxSymbols t c._token c._version filter

/-- Embeds `Client.prototype.optionsSymbols` (ref-data module). -/
def Client.optionsSymbols {α : Type} (c : Client) (t : Request → α)
    (filter : String) : α :=
  Iexjs.optionsSymbols t c._token c._version filter

/-- Embeds `Client.prototype.cryptoSymbols` (ref-data module). -/
def Client.cryptoSymbols {α : Type} (c : Client) (t : Request → α)
    (filter : String) : α :=
  Iexjs.cryptoSymbols t c._token c._version filter

/-- Embeds `Client.prototype.symbolsList` (ref-data module), written in the
source as `convertToList(symbols(this._token, this._version, "symbol"))`. -/
def Client.symbolsList (c : Client) (t : Request → List SymbolRecord) :
    List String :=
  convertToList (Iexjs.symbols t c._token c._version "symbol")

/-- Embeds `Client.prototype.iexSymbolsList` (ref-data module). -/
def Client.iexSymbolsList (c : Client) (t : Request → List SymbolRecord) :
    List String :=
  convertToList (Iexjs.iexSymbols t c._token c._version "symbol")

/-- Embeds `Client.prototype.mutualFundSymbolsList` (ref-data module). -/
def Client.mutualFundSymbolsList (c : Client)
    (t : Request → List SymbolRecord) : List String :=
  convertToList (Iexjs.mutualFundSymbols t c._token c._version "symbol")

/-- Embeds `Client.prototype.otcSymbolsList` (ref-data module). -/
def Client.otcSymbolsList (c : Client) (t : Request → List SymbolRecord) :
    List String :=
  convertToList (Iexjs.otcSymbols t c._token c._version "symbol")

/-- Embeds `Client.prototype.internationalSymbolsList` (ref-data module). -/
def Client.internationalSymbolsList (c : Client)
    (t : Request → List SymbolRecord) (region exchange : String) :
    List String :=
  convertToList
    (Iexjs.internationalSymbols t region exchange c._token c._version "symbol")

/-- Embeds `Client.prototype.fxSymbolsList` (ref-data module), which calls
the free `fxSymbolsList` with the stored credentials. -/
def Client.fxSymbolsList (c : Client) (t : Request → FxResponse) :
    List String × List String :=
  Iexjs.fxSymbolsList t c._token c._version

/-- Embeds `Client.prototype.optionsSymbolsList` (ref-data module). -/
def Client.optionsSymbolsList (c : Client) (t : Request → List SymbolRecord) :
    List String :=
  convertToList (Iexjs.optionsSymbols t c._token c._version "symbol")

/-- Embeds `Client.prototype.cryptoSymbolsList` (ref-data module). -/
def Client.cryptoSymbolsList (c : Client) (t : Request → List SymbolRecord) :
    List String :=
  convertToList (Iexjs.cryptoSymbols t c._token c._version "symbol")

/-- Embeds `Client.prototype.isinLookup` (ref-data module). -/
def Client.isinLookup {α : Type} (c : Client) (t : Request → α)
    (isin filter : String) : α :=
  Iexjs.isinLookup t isin c._token c._version filter

/-! ## Theorems -/

/-- A forEach/push loop over an array, embedded as a left fold appending one
element per record, is the map of the per-record projection. -/
theorem foldl_push_eq_map {β γ : Type} (g : β → γ) (l : List β) (acc : List γ) :
    l.foldl (fun a x => a ++ [g x]) acc = acc ++ l.map g := by
  induction l generalizing acc with
  | nil => simp
  | cons x xs ih => simp [List.foldl, ih]

/-- C1 (counterexample): with the non-empty symbol "AAPL", `auction` reaches
the transport with the caller's filter forwarded (`some "ohlc"`), not
dropped, refuting the claim that every branching endpoint withholds the
filter from the request core in the batch branch. -/
theorem auction_batch_forwards_filter_cx :
    auction (fun r => r) (JsVal.str "AAPL") "tk" "v" (some "ohlc") =
      Except.ok { url := "deep/auction?symbols=AAPL", token := "tk",
                  version := "v", filter := some "ohlc" } ∧
    ¬ auction (fun r => r) (JsVal.str "AAPL") "tk" "v" (some "ohlc") =
      Except.ok { url := "deep/auction?symbols=AAPL", token := "tk",
                  version := "v", filter := none } := by
  refine ⟨rfl, fun h => ?_⟩
  simp [auction, _raiseIfNotStr, JsVal.truthy, JsVal.interp, _getJsonPos,
    _getJson] at h

/-- C1 (amended): every branching endpoint uses the `?symbols=` batch URL
form on a truthy symbols argument and the plain URL form otherwise, but
only `tops`, `last` and `deep` drop the caller's filter in the batch branch
(their source calls `_getJson` with three arguments there); `auction`,
`book`, `opHaltStatus`, `officialPrice`, `securityEvent`, `ssrStatus`,
`systemEvent`, `trades`, `tradeBreak` and `tradingStatus` forward the filter
in both branches.  In the empty/omitted case the filter is always
forwarded. -/
theorem batch_branch_filter_split {α : Type} (t : Request → α) (sym : JsVal)
    (s tk v : String) (f : Option String) :
    (sym.truthy = true →
      tops t sym tk v f =
        t ⟨"tops?symbols=" ++ String.intercalate "," (_strToList sym) ++ "%2b",
           tk, v, none⟩ ∧
      last t sym tk v f =
        t ⟨"last?symbols=" ++ String.intercalate "," (_strToList sym) ++ "%2b",
           tk, v, none⟩) ∧
    (sym.truthy = false →
      tops t sym tk v f = t ⟨"tops", tk, v, f⟩ ∧
      last t sym tk v f = t ⟨"last", tk, v, f⟩) ∧
    (s ≠ "" →
      deep t (.str s) tk v f =
        .ok (t ⟨"deep?symbols=" ++ s, tk, v, none⟩) ∧
      auction t (.str s) tk v f =
        .ok (t ⟨"deep/auction?symbols=" ++ s, tk, v, f⟩) ∧
      book t (.str s) tk v f =
        .ok (t ⟨"deep/book?symbols=" ++ s, tk, v, f⟩) ∧
      opHaltStatus t (.str s) tk v f =
        .ok (t ⟨"deep/op-halt-status?symbols=" ++ s, tk, v, f⟩) ∧
      officialPrice t (.str s) tk v f =
        .ok (t ⟨"deep/official-price?symbols=" ++ s, tk, v, f⟩) ∧
      securityEvent t (.str s) tk v f =
        .ok (t ⟨"deep/security-event?symbols=" ++ s, tk, v, f⟩) ∧
      ssrStatus t (.str s) tk v f =
        .ok (t ⟨"deep/ssr-status?symbols=" ++ s, tk, v, f⟩) ∧
      systemEvent t (.str s) tk v f =
        .ok (t ⟨"deep/system-event?symbols=" ++ s, tk, v, f⟩) ∧
      trades t (.str s) tk v f =
        .ok (t ⟨"deep/trades?symbols=" ++ s, tk, v, f⟩) ∧
      tradeBreak t (.str s) tk v f =
        .ok (t ⟨"deep/trade-breaks?symbols=" ++ s, tk, v, f⟩) ∧
      tradingStatus t (.str s) tk v f =
        .ok (t ⟨"deep/trading-status?symbols=" ++ s, tk, v, f⟩)) ∧
    (sym.truthy = false → _raiseIfNotStr sym = .ok () →
      deep t sym tk v f = .ok (t ⟨"deep", tk, v, f⟩) ∧
      auction t sym tk v f = .ok (t ⟨"deep/auction", tk, v, f⟩) ∧
      book t sym tk v f = .ok (t ⟨"deep/book", tk, v, f⟩) ∧
      opHaltStatus t sym tk v f = .ok (t ⟨"deep/op-halt-status", tk, v, f⟩) ∧
      officialPrice t sym tk v f = .ok (t ⟨"deep/official-price", tk, v, f⟩) ∧
      securityEvent t sym tk v f = .ok (t ⟨"deep/security-event", tk, v, f⟩) ∧
      ssrStatus t sym tk v f = .ok (t ⟨"deep/ssr-status", tk, v, f⟩) ∧
      systemEvent t sym tk v f = .ok (t ⟨"deep/system-event", tk, v, f⟩) ∧
      trades t sym tk v f = .ok (t ⟨"deep/trades", tk, v, f⟩) ∧
      tradeBreak t sym tk v f = .ok (t ⟨"deep/trade-breaks", tk, v, f⟩) ∧
      tradingStatus t sym tk v f =
        .ok (t ⟨"deep/trading-status", tk, v, f⟩)) := by
  refine ⟨fun h => ?_, fun h => ?_, fun h => ?_, fun h h2 => ?_⟩
  · exact ⟨by simp [tops, h, _getJsonPos, _getJson],
      by simp [last, h, _getJsonPos, _getJson]⟩
  · exact ⟨by simp [tops, h, _getJsonPos, _getJson],
      by simp [last, h, _getJsonPos, _getJson]⟩
  · refine ⟨?_, ?_, ?_, ?_, ?_, ?_, ?_, ?_, ?_, ?_, ?_⟩ <;>
      simp [deep, auction, book, opHaltStatus, officialPrice, securityEvent,
        ssrStatus, systemEvent, trades, tradeBreak, tradingStatus,
        _raiseIfNotStr, JsVal.truthy, JsVal.interp, _getJsonPos, _getJson, h]
  · cases sym with
    | undef =>
      exact ⟨rfl, rfl, rfl, rfl, rfl, rfl, rfl, rfl, rfl, rfl, rfl⟩
    | str s' =>
      refine ⟨?_, ?_, ?_, ?_, ?_, ?_, ?_, ?_, ?_, ?_, ?_⟩ <;>
        simp_all [deep, auction, book, opHaltStatus, officialPrice,
          securityEvent, ssrStatus, systemEvent, trades, tradeBreak,
          tradingStatus, _raiseIfNotStr, JsVal.truthy, _getJsonPos, _getJson]
    | list ss => simp [_raiseIfNotStr] at h2

/-- C1 (witness): the amended theorem evaluated at concrete inputs — a
truthy list for `tops`, an omitted argument for the plain branch, and the
symbol "AAPL" for the single-symbol endpoints. -/
theorem batch_branch_filter_split_witness :
    tops (fun r => r) (JsVal.list ["AAPL", "MSFT"]) "tk" "v" (some "ohlc") =
      ⟨"tops?symbols=AAPL,MSFT%2b", "tk", "v", none⟩ ∧
    tops (fun r => r) JsVal.undef "tk" "v" (some "ohlc") =
      ⟨"tops", "tk", "v", some "ohlc"⟩ ∧
    deep (fun r => r) (JsVal.str "AAPL") "tk" "v" (some "ohlc") =
      .ok ⟨"deep?symbols=AAPL", "tk", "v", none⟩ ∧
    auction (fun r => r) (JsVal.str "AAPL") "tk" "v" (some "ohlc") =
      .ok ⟨"deep/auction?symbols=AAPL", "tk", "v", some "ohlc"⟩ ∧
    deep (fun r => r) JsVal.undef "tk" "v" (some "ohlc") =
      .ok ⟨"deep", "tk", "v", some "ohlc"⟩ := by
  have h := batch_branch_filter_split (fun r => r)
    (JsVal.list ["AAPL", "MSFT"]) "AAPL" "tk" "v" (some "ohlc")
  have h2 := batch_branch_filter_split (fun r => r)
    JsVal.undef "AAPL" "tk" "v" (some "ohlc")
  exact ⟨(h.1 rfl).1, (h2.2.1 rfl).1, (h.2.2.1 (by decide)).1,
    (h.2.2.1 (by decide)).2.1, (h2.2.2.2 rfl rfl).1⟩

/-- C2: for every `Client` holding a token and a version, every mounted
method agrees with its free endpoint function called with the stored token
and version and the same remaining arguments — the two call surfaces are
equivalent for all inputs, for all thirty-one embedded endpoint
functions. -/
theorem client_methods_equiv_free_functions {α : Type} (c : Client)
    (t : Request → α) (tl : Request → List SymbolRecord)
    (tf : Request → FxResponse) (sym : JsVal) (f : Option String)
    (date region exchange isin fs : String) :
    c.tops t sym f = tops t sym c._token c._version f ∧
    c.last t sym f = last t sym c._token c._version f ∧
    c.deep t sym f = deep t sym c._token c._version f ∧
    c.auction t sym f = auction t sym c._token c._version f ∧
    c.book t sym f = book t sym c._token c._version f ∧
    c.opHaltStatus t sym f = opHaltStatus t sym c._token c._version f ∧
    c.officialPrice t sym f = officialPrice t sym c._token c._version f ∧
    c.securityEvent t sym f = securityEvent t sym c._token c._version f ∧
    c.ssrStatus t sym f = ssrStatus t sym c._token c._version f ∧
    c.systemEvent t sym f = systemEvent t sym c._token c._version f ∧
    c.trades t sym f = trades t sym c._token c._version f ∧
    c.tradeBreak t sym f = tradeBreak t sym c._token c._version f ∧
    c.tradingStatus t sym f = tradingStatus t sym c._token c._version f ∧
    c.hist t date f = hist t date c._token c._version f ∧
    c.symbols t fs = symbols t c._token c._version fs ∧
    c.iexSymbols t fs = iexSymbols t c._token c._version fs ∧
    c.mutualFundSymbols t fs = mutualFundSymbols t c._token c._version fs ∧
    c.otcSymbols t fs = otcSymbols t c._token c._version fs ∧
    c.internationalSymbols t region exchange fs =
      internationalSymbols t region exchange c._token c._version fs ∧
    c.fxSymbols t fs = fxSymbols t c._token c._version fs ∧
    c.optionsSymbols t fs = optionsSymbols t c._token c._version fs ∧
    c.cryptoSymbols t fs = cryptoSymbols t c._token c._version fs ∧
    c.symbolsList tl = symbolsList tl c._token c._version ∧
    c.iexSymbolsList tl = iexSymbolsList tl c._token c._version ∧
    c.mutualFundSymbolsList tl = mutualFundSymbolsList tl c._token c._version ∧
    c.otcSymbolsList tl = otcSymbolsList tl c._token c._version ∧
    c.internationalSymbolsList tl region exchange =
      internationalSymbolsList tl region exchange c._token c._version ∧
    c.fxSymbolsList tf = fxSymbolsList tf c._token c._version ∧
    c.optionsSymbolsList tl = optionsSymbolsList tl c._token c._version ∧
    c.cryptoSymbolsList tl = cryptoSymbolsList tl c._token c._version ∧
    c.isinLookup t isin fs = isinLookup t isin c._token c._version fs :=
  ⟨rfl, rfl, rfl, rfl, rfl, rfl, rfl, rfl, rfl, rfl, rfl, rfl, rfl, rfl, rfl,
   rfl, rfl, rfl, rfl, rfl, rfl, rfl, rfl, rfl, rfl, rfl, rfl, rfl, rfl, rfl,
   rfl⟩

/-- C3: the positional calling convention of http.js —
`_getJson({url}, token, version, filter)` — and the single-object
convention of the ref-data module — `_getJson({url, token, version,
filter})` — deliver the same four-field request descriptor to the
transport, for every url, token, version and filter. -/
theorem getJson_call_shapes_equiv {α : Type} (t : Request → α)
    (url token version : String) (filter : Option String) :
    _getJsonPos t ⟨url⟩ token version filter =
      _getJson t { url := url, token := token, version := version,
                   filter := filter } ∧
    _getJsonPos t ⟨url⟩ token version filter =
      t { url := url, token := token, version := version, filter := filter } :=
  ⟨rfl, rfl⟩

/-- C4: `symbolsList` is `symbols` with the filter `"symbol"` and every
record of the response projected to its `symbol` field, preserving order
(the projection is a map) and length; on the response
`[{symbol:"AAPL"},{symbol:"MSFT"}]` it yields `["AAPL","MSFT"]`. -/
theorem symbolsList_eq_symbols_map_symbol (t : Request → List SymbolRecord)
    (token version : String) :
    symbolsList t token version =
      (symbols t token version "symbol").map SymbolRecord.symbol ∧
    (symbolsList t token version).length =
      (symbols t token version "symbol").length ∧
    symbolsList (fun _ => [⟨"AAPL"⟩, ⟨"MSFT"⟩]) token version =
      ["AAPL", "MSFT"] := by
  refine ⟨rfl, ?_, rfl⟩
  simp [symbolsList, convertToList]

/-- C5: `fxSymbolsList` partitions the decoded FX response into the codes of
the `currencies` array and the `fromCurrency ++ toCurrency` concatenations
of the `pairs` array, each in order; on
`{currencies:[{code:"USD"}], pairs:[{fromCurrency:"USD",toCurrency:"JPY"}]}`
it yields `(["USD"], ["USDJPY"])`. -/
theorem fxSymbolsList_partitions_response (t : Request → FxResponse)
    (token version : String) :
    fxSymbolsList t token version =
      ((fxSymbols t token version "").currencies.map CurrencyRecord.code,
       (fxSymbols t token version "").pairs.map
         (fun record => record.fromCurrency ++ record.toCurrency)) ∧
    fxSymbolsList (fun _ => ⟨[⟨"USD"⟩], [⟨"USD", "JPY"⟩]⟩) token version =
      (["USD"], ["USDJPY"]) := by
  refine ⟨?_, rfl⟩
  simp [fxSymbolsList, foldl_push_eq_map]

/-- C6: for a non-empty symbol string `s`, `deep` builds the URL
`deep?symbols=s`; for an empty or omitted symbol it builds the plain URL
`deep` with no query parameter (and forwards the filter). -/
theorem deep_url_shape {α : Type} (t : Request → α) (s tk v : String)
    (f : Option String) :
    (s ≠ "" →
      deep t (.str s) tk v f =
        .ok (t ⟨"deep?symbols=" ++ s, tk, v, none⟩)) ∧
    deep t (.str "") tk v f = .ok (t ⟨"deep", tk, v, f⟩) ∧
    deep t .undef tk v f = .ok (t ⟨"deep", tk, v, f⟩) := by
  refine ⟨fun h => ?_, rfl, rfl⟩
  simp [deep, _raiseIfNotStr, JsVal.truthy, JsVal.interp, _getJsonPos,
    _getJson, h]

/-- C6 (witness): `deep` at the concrete symbol "SPY". -/
theorem deep_url_shape_witness :
    deep (fun r => r) (JsVal.str "SPY") "tk" "v" (some "f") =
      .ok ⟨"deep?symbols=SPY", "tk", "v", none⟩ :=
  (deep_url_shape (fun r => r) "SPY" "tk" "v" (some "f")).1 (by decide)

/-- C7: an array argument (of any length) where a single symbol is required
makes every single-symbol endpoint fail with `TypeArgumentError`, for every
transport — the error is produced without the transport being consulted. -/
theorem nonstring_symbol_raises_before_transport {α : Type}
    (t : Request → α) (ss : List String) (tk v : String) (f : Option String) :
    deep t (.list ss) tk v f = .error .typeArgumentError ∧
    auction t (.list ss) tk v f = .error .typeArgumentError ∧
    book t (.list ss) tk v f = .error .typeArgumentError ∧
    opHaltStatus t (.list ss) tk v f = .error .typeArgumentError ∧
    officialPrice t (.list ss) tk v f = .error .typeArgumentError ∧
    securityEvent t (.list ss) tk v f = .error .typeArgumentError ∧
    ssrStatus t (.list ss) tk v f = .error .typeArgumentError ∧
    systemEvent t (.list ss) tk v f = .error .typeArgumentError ∧
    trades t (.list ss) tk v f = .error .typeArgumentError ∧
    tradeBreak t (.list ss) tk v f = .error .typeArgumentError ∧
    tradingStatus t (.list ss) tk v f = .error .typeArgumentError :=
  ⟨rfl, rfl, rfl, rfl, rfl, rfl, rfl, rfl, rfl, rfl, rfl⟩

/-- C8: on a truthy symbols argument, `tops` and `last` build their symbols
query parameter as the comma-join of the normalized symbol list followed by
the `%2b` suffix (the query-string-encoded literal `+`); the join is the
identity on one symbol and comma-separates several. -/
theorem batch_url_comma_join_plus_suffix {α : Type} (t : Request → α)
    (sym : JsVal) (tk v : String) (f : Option String)
    (h : sym.truthy = true) :
    tops t sym tk v f =
      t ⟨"tops?symbols=" ++ String.intercalate "," (_strToList sym) ++ "%2b",
         tk, v, none⟩ ∧
    last t sym tk v f =
      t ⟨"last?symbols=" ++ String.intercalate "," (_strToList sym) ++ "%2b",
         tk, v, none⟩ ∧
    String.intercalate "," (_strToList (JsVal.str "AAPL")) = "AAPL" ∧
    String.intercalate "," (_strToList (JsVal.list ["AAPL", "MSFT"])) =
      "AAPL,MSFT" := by
  refine ⟨?_, ?_, rfl, rfl⟩
  · simp [tops, h, _getJsonPos, _getJson]
  · simp [last, h, _getJsonPos, _getJson]

/-- C8 (witness): `tops` and `last` at the concrete list
`["AAPL", "MSFT"]`. -/
theorem batch_url_comma_join_plus_suffix_witness :
    tops (fun r => r) (JsVal.list ["AAPL", "MSFT"]) "tk" "v" none =
      ⟨"tops?symbols=AAPL,MSFT%2b", "tk", "v", none⟩ ∧
    last (fun r => r) (JsVal.list ["AAPL", "MSFT"]) "tk" "v" none =
      ⟨"last?symbols=AAPL,MSFT%2b", "tk", "v", none⟩ :=
  ⟨(batch_url_comma_join_plus_suffix (fun r => r)
      (JsVal.list ["AAPL", "MSFT"]) "tk" "v" none (by decide)).1,
   (batch_url_comma_join_plus_suffix (fun r => r)
      (JsVal.list ["AAPL", "MSFT"]) "tk" "v" none (by decide)).2.1⟩

/-- C9: `internationalSymbols` with region "us" (exchange omitted) and with
both region and exchange omitted build the same request, with URL
`ref-data/region/us/symbols`. -/
theorem internationalSymbols_us_default_agree {α : Type} (t : Request → α)
    (tk v fs : String) :
    internationalSymbols t "us" "" tk v fs =
      internationalSymbols t "" "" tk v fs ∧
    internationalSymbols t "us" "" tk v fs =
      t ⟨"ref-data/region/us/symbols", tk, v, some fs⟩ :=
  ⟨rfl, rfl⟩

/-- C10: when region is non-empty, `internationalSymbols` uses the region
URL form and the exchange argument has no effect on the request; the
exchange URL form is used exactly when region is empty and exchange is
non-empty. -/
theorem internationalSymbols_region_precedence {α : Type} (t : Request → α)
    (region exchange exchange2 tk v fs : String) :
    (region ≠ "" →
      internationalSymbols t region exchange tk v fs =
        t ⟨"ref-data/region/" ++ region ++ "/symbols", tk, v, some fs⟩ ∧
      internationalSymbols t region exchange tk v fs =
        internationalSymbols t region exchange2 tk v fs) ∧
    (region = "" → exchange ≠ "" →
      internationalSymbols t region exchange tk v fs =
        t ⟨"ref-data/exchange/" ++ exchange ++ "/symbols", tk, v, some fs⟩) := by
  refine ⟨fun h => ⟨?_, ?_⟩, fun h h2 => ?_⟩ <;>
    simp [internationalSymbols, _getJson, h, *]

/-- C10 (witness): region "ca" wins over any exchange; with region empty the
exchange "tse" selects the exchange URL form. -/
theorem internationalSymbols_region_precedence_witness :
    internationalSymbols (fun r => r) "ca" "tse" "tk" "v" "fs" =
      ⟨"ref-data/region/ca/symbols", "tk", "v", some "fs"⟩ ∧
    internationalSymbols (fun r => r) "ca" "tse" "tk" "v" "fs" =
      internationalSymbols (fun r => r) "ca" "nyse" "tk" "v" "fs" ∧
    internationalSymbols (fun r => r) "" "tse" "tk" "v" "fs" =
      ⟨"ref-data/exchange/tse/symbols", "tk", "v", some "fs"⟩ := by
  have h := internationalSymbols_region_precedence (fun r => r)
    "ca" "tse" "nyse" "tk" "v" "fs"
  have h2 := internationalSymbols_region_precedence (fun r => r)
    "" "tse" "nyse" "tk" "v" "fs"
  exact ⟨(h.1 (by decide)).1, (h.1 (by decide)).2, h2.2 rfl (by decide)⟩

end Iexjs
